import Mathlib

/-!
Verification of the BST repository (Blender studio tools) against its
specification.  The development shallowly embeds the Python sources:

* `blender_svn/svn_log.py`: the svn log file parser `read_svn_log_file`,
  the modal operator `SVN_fetch_log` (invoke and modal steps) and the
  cancel operator `SVN_fetch_log_cancel`;
* `cache_manager/cache.py`: `CacheConfigFactory.gen_config_from_scene`
  and `CacheConfigFactory.load_config_from_file`;
* `blezou/props.py` and `blender_svn/props.py`: the `register` and
  `unregister` functions, modelled as transformers of the host
  application's object model.

Python exceptions are modelled with `Except`; machine-level Python `int`
is arbitrary precision and is modelled by `Int`.
-/

deriving instance DecidableEq for Except

/-- Python exception classes that the embedded code can raise. -/
inductive PyErr where
  | stopIteration
  | valueError
  | assertionError
  | indexError
  | keyError
  | jsonDecodeError
deriving DecidableEq, Repr

/-- `json.JSONDecodeError` is a subclass of `ValueError` in CPython, so an
`except ValueError` also catches it. -/
def PyErr.isValueError : PyErr → Bool
  | .valueError => true
  | .jsonDecodeError => true
  | _ => false

/-- Whether `sep` is a prefix of `l` (used by the model of `str.split`). -/
def listStartsWith : List Char → List Char → Bool
  | [], _ => true
  | _ :: _, [] => false
  | a :: as, b :: bs => (a == b) && listStartsWith as bs

/-- Fuel-driven splitter on a non-empty separator, scanning left to right and
taking non-overlapping occurrences, exactly like Python `str.split(sep)`.
The fuel is always at least the length of the scanned list, so the
fuel-exhausted arm is unreachable. -/
def splitFuel (sep : List Char) : Nat → List Char → List Char → List (List Char)
  | _, [], acc => [acc.reverse]
  | 0, l, acc => [acc.reverse ++ l]
  | Nat.succ n, c :: rest, acc =>
    if listStartsWith sep (c :: rest) then
      acc.reverse :: splitFuel sep n (List.drop sep.length (c :: rest)) []
    else
      splitFuel sep n rest (c :: acc)

/-- Python `s.split(sep)` for a non-empty separator `sep`.  (Python raises
`ValueError` on an empty separator; this model is never used with one.) -/
def pySplit (sep s : String) : List String :=
  match sep.toList with
  | [] => []
  | c :: cs => (splitFuel (c :: cs) (s.toList.length + 1) s.toList []).map String.mk

/-- Value of a list of decimal digit characters. -/
def digitsVal (cs : List Char) : Nat :=
  cs.foldl (fun a c => a * 10 + (c.toNat - 48)) 0

/-- Python `int(s)` on the strings this code feeds it: an optional sign
followed by decimal digits; anything else raises `ValueError` (`none`). -/
def pyInt (s : String) : Option Int :=
  match s.toList with
  | '-' :: rest =>
    if rest ≠ [] ∧ rest.all Char.isDigit then some (-(digitsVal rest : Int)) else none
  | '+' :: rest =>
    if rest ≠ [] ∧ rest.all Char.isDigit then some ((digitsVal rest : Int)) else none
  | cs =>
    if cs ≠ [] ∧ cs.all Char.isDigit then some ((digitsVal cs : Int)) else none

/-- Split a character list at newline characters (model of text line
structure; every piece list is newline-free). -/
def splitCh : List Char → List (List Char)
  | [] => [[]]
  | c :: rest =>
    if c = '\n' then [] :: splitCh rest
    else (c :: (splitCh rest).headD []) :: (splitCh rest).tail

/-- The list of lines produced by iterating over a Python text file whose
content is `s`, with the trailing newline of each line already stripped
(the parser strips it with `line.replace("\n", "")`).  A file whose content
ends in a newline yields no final empty line, and an empty file yields no
lines at all. -/
def pyFileLines (s : String) : List String :=
  let parts := (splitCh s.toList).map String.mk
  if parts.getLast? = some "" then parts.dropLast else parts

/-- Build a file content out of lines, each line terminated by a newline. -/
def mkFileContent (ls : List String) : String :=
  String.mk (ls.foldr (fun l acc => l.toList ++ '\n' :: acc) [])

/-- Python `s[n:]` (character based). -/
def strDrop (s : String) (n : Nat) : String :=
  String.mk (s.toList.drop n)

/-- Clamp a Python slice bound to an index into a list of length `len`:
negative bounds count from the end, out-of-range bounds are clamped. -/
def pyBound (len : Nat) (i : Int) : Nat :=
  (max 0 (min (if i < 0 then i + (len : Int) else i) (len : Int))).toNat

/-- Python `l[a:b]`. -/
def pySlice (a b : Int) (l : List α) : List α :=
  (l.take (pyBound l.length b)).drop (pyBound l.length a)

/-- Python `l[a:]`. -/
def pySliceFrom (a : Int) (l : List α) : List α :=
  l.drop (pyBound l.length a)

/-- Model of `pathlib.Path(p).name`: the last non-empty path component. -/
def pyPathName (s : String) : String :=
  (((pySplit "/" s).filter (fun t => t ≠ "")).getLast?).getD ""

/-- Gregorian leap year, as used by `datetime`. -/
def isLeapYear (y : Int) : Bool :=
  y % 4 == 0 && (y % 100 != 0 || y % 400 == 0)

/-- Number of days of month `m` of year `y`, as validated by `datetime`. -/
def daysInMonth (y : Int) (m : Nat) : Nat :=
  if m = 2 then (if isLeapYear y then 29 else 28)
  else if m = 4 ∨ m = 6 ∨ m = 9 ∨ m = 11 then 30
  else 31

/-- Model of a `datetime.datetime` value (the fields this code uses). -/
structure PyDateTime where
  year : Int
  month : Nat
  day : Nat
  hour : Nat
  minute : Nat
  second : Nat
deriving DecidableEq, Repr

/-- A numeric strptime field of at most `maxDigits` digits. -/
def parseNumField (s : String) (maxDigits : Nat) : Option Nat :=
  let cs := s.toList
  if cs ≠ [] ∧ cs.length ≤ maxDigits ∧ cs.all Char.isDigit then some (digitsVal cs)
  else none

/-- Model of `datetime.strptime(f"{date} {time}", "%Y-%m-%d %H:%M:%S")`:
`none` models the `ValueError` raised on a malformed or out-of-range
date. -/
def strptimeDT (dateStr timeStr : String) : Option PyDateTime :=
  match pySplit "-" dateStr, pySplit ":" timeStr with
  | [ys, ms, ds], [hs, mins, ss] =>
    match parseNumField ys 4, parseNumField ms 2, parseNumField ds 2,
          parseNumField hs 2, parseNumField mins 2, parseNumField ss 2 with
    | some y, some m, some d, some hh, some mi, some sec =>
      if 1 ≤ y ∧ 1 ≤ m ∧ m ≤ 12 ∧ 1 ≤ d ∧ d ≤ daysInMonth (y : Int) m ∧
          hh ≤ 23 ∧ mi ≤ 59 ∧ sec ≤ 59 then
        some ⟨(y : Int), m, d, hh, mi, sec⟩
      else none
    | _, _, _, _, _, _ => none
  | _, _ => none

/-- English month abbreviations, `strftime("%b")` in the C locale. -/
def monthAbbrev (m : Nat) : String :=
  (["Jan", "Feb", "Mar", "Apr", "May", "Jun",
    "Jul", "Aug", "Sep", "Oct", "Nov", "Dec"].getD (m - 1) "")

/-- Python `str(n).zfill(2)` for a natural number. -/
def zfill2 (n : Nat) : String :=
  if n < 10 then "0" ++ toString n else toString n

/-- The `revision_date` string built by `read_svn_log_file`:
`f"{year}-{month_name}-{day}" + " " + f"{hour:zfill2}:{minute:zfill2}"`. -/
def fmtRevDate (dt : PyDateTime) : String :=
  toString dt.year ++ "-" ++ monthAbbrev dt.month ++ "-" ++ toString dt.day
    ++ " " ++ zfill2 dt.hour ++ ":" ++ zfill2 dt.minute

/-- Modelled from the spec: `svn_status.SVN_STATUS_CHAR`, the addon's
mapping from the action character of a verbose svn log file line to a
status identifier (the `svn_status` module is not among the sources; the
claims only use that the status is a function of the character at index
3, looked up in a dict that raises `KeyError` on unknown characters). -/
def SVN_STATUS_CHAR (c : Char) : Option String :=
  if c = 'A' then some "added"
  else if c = 'D' then some "deleted"
  else if c = 'M' then some "modified"
  else if c = 'R' then some "replaced"
  else none

/-- `SVN_file` property group of `svn_log.py` (one changed file of a log
entry). -/
structure SVN_file where
  name : String
  svn_path : String
  status : String
  revision : Int
  is_referenced : Bool := false
deriving DecidableEq, Repr

/-- `SVN_log` property group of `svn_log.py` (one log entry). -/
structure SVN_log where
  revision_number : Int
  revision_date : String
  revision_author : String
  commit_message : String
  changed_files : List SVN_file
deriving DecidableEq, Repr

/-- The separator line `"-" * 72` of the svn log format. -/
def dashes72 : String := String.mk (List.replicate 72 '-')

/-- The chunking loop of `read_svn_log_file`: empty lines are skipped, a
line of 72 dashes closes the current chunk, any other line is appended to
the current chunk; an unterminated final chunk is dropped. -/
def mkChunks : List String → List String → List (List String) → List (List String)
  | [], _, acc => acc.reverse
  | line :: rest, chunk, acc =>
    if line = "" then mkChunks rest chunk acc
    else if line = dashes72 then mkChunks rest [] (chunk :: acc)
    else mkChunks rest (chunk ++ [line]) acc

/-- The changed-file loop of `read_svn_log_file`: for each line, the status
character is `line[3]` (`IndexError` if the line is shorter), the svn path
is `line[5:]`, the name is `Path(file_path).name`, and the status is looked
up in `SVN_STATUS_CHAR` (`KeyError` if absent). -/
def parseFileLines (rev : Int) : List String → Except PyErr (List SVN_file)
  | [] => .ok []
  | line :: rest =>
    match line.toList.drop 3 with
    | [] => .error .indexError
    | status_char :: _ =>
      match SVN_STATUS_CHAR status_char with
      | none => .error .keyError
      | some st =>
        match parseFileLines rev rest with
        | .error e => .error e
        | .ok files =>
          .ok ({ name := pyPathName (String.mk (line.toList.drop 5)),
                 svn_path := String.mk (line.toList.drop 5),
                 status := st, revision := rev } :: files)

/-- Parse one chunk of `read_svn_log_file`, with `prev` the previous
revision number: split the first line on `" | "` (a `ValueError` on a
wrong number of fields), parse the revision number from `r_number[1:]`,
assert it equals `prev + 1`, parse the commit message length, split the
date field into seven words, parse the date, take the changed files from
`chunk[2:-r_msg_length]` and the commit message from
`chunk[-r_msg_length:]`. -/
def parseChunk (prev : Int) (chunk : List String) : Except PyErr SVN_log :=
  match chunk with
  | [] => .error .indexError
  | first :: _ =>
    match pySplit " | " first with
    | [rstr, r_author, r_date, msgLenStr] =>
      match pyInt (strDrop rstr 1) with
      | none => .error .valueError
      | some r_number =>
        if r_number ≠ prev + 1 then .error .assertionError
        else
          match pyInt (((pySplit " " msgLenStr).headD "")) with
          | none => .error .valueError
          | some r_msg_length =>
            match pySplit " " r_date with
            | [date, time, _tz, _dayname, _nday, _mo, _yr] =>
              match strptimeDT date time with
              | none => .error .valueError
              | some dt =>
                match parseFileLines r_number (pySlice 2 (-r_msg_length) chunk) with
                | .error e => .error e
                | .ok files =>
                  .ok { revision_number := r_number,
                        revision_author := r_author,
                        revision_date := fmtRevDate dt,
                        commit_message :=
                          String.intercalate "\n" (pySliceFrom (-r_msg_length) chunk),
                        changed_files := files }
            | _ => .error .valueError
    | _ => .error .valueError

/-- Parse all chunks in order, threading the previous revision number
(`previous_rev_number` starts at 0). -/
def parseChunks (prev : Int) : List (List String) → Except PyErr (List SVN_log)
  | [] => .ok []
  | chunk :: rest =>
    match parseChunk prev chunk with
    | .error e => .error e
    | .ok entry =>
      match parseChunks entry.revision_number rest with
      | .error e2 => .error e2
      | .ok es => .ok (entry :: es)

/-- The body of `read_svn_log_file` once the file is open: `next(f)` skips
the first line (raising `StopIteration` on an empty file), the remaining
lines are chunked at the 72-dash separators and each chunk is parsed. -/
def readLogLines (lines : List String) : Except PyErr (List SVN_log) :=
  match lines with
  | [] => .error .stopIteration
  | _ :: rest => parseChunks 0 (mkChunks rest [] [])

/-- `read_svn_log_file(context, filepath)`.  `log0` is the scene's log
collection at entry; the function clears it first (`svn.log.clear()`), so
the result never depends on it.  If the file does not exist the function
returns with the log left empty. -/
def read_svn_log_file (log0 : List SVN_log) (fileExists : Bool) (content : String) :
    Except PyErr (List SVN_log) :=
  let _ := log0
  if fileExists then readLogLines (pyFileLines content) else .ok []

/-- An abstract svn log entry as it appears in the log file: the header
line (`rN | author | date | K lines`), the `Changed paths:` line, the
changed-file lines, possibly some blank lines, and the commit message
lines. -/
structure RawEntry where
  headerLine : String
  pathsLine : String
  fileLines : List String
  blankCount : Nat
  msgLines : List String
deriving Repr

/-- The lines an entry occupies in the log file (blank lines separate the
changed files from the commit message, as in real svn output). -/
def entryFileLines (e : RawEntry) : List String :=
  e.headerLine :: e.pathsLine ::
    (e.fileLines ++ List.replicate e.blankCount "" ++ e.msgLines)

/-- The chunk the chunking loop collects for an entry: its non-empty
lines. -/
def chunkOf (e : RawEntry) : List String :=
  e.headerLine :: e.pathsLine :: (e.fileLines ++ e.msgLines)

/-- A log file made of a header line followed by entries, each terminated
by a line of 72 dashes (the svn log format: the skipped header line is the
leading dash line of `svn log` output). -/
def mkLogFile (hdr : String) (entries : List RawEntry) : String :=
  mkFileContent (hdr :: entries.foldr (fun e acc => entryFileLines e ++ dashes72 :: acc) [])

/-- The revision number parsed from an entry's header line split on
`" | "`: `int` of the first field with its first character removed. -/
def revOf (e : RawEntry) : Int :=
  (pyInt (strDrop (((pySplit " | " e.headerLine)).headD "") 1)).getD 0

/-- A line that survives the chunking loop unchanged: non-empty, not the
72-dash separator, and newline-free (it is a single file line). -/
def lineOK (s : String) : Prop :=
  s ≠ "" ∧ s ≠ dashes72 ∧ '\n' ∉ s.toList

instance instDecidableLineOK (s : String) : Decidable (lineOK s) :=
  inferInstanceAs (Decidable (s ≠ "" ∧ s ≠ dashes72 ∧ '\n' ∉ s.toList))

/-- Well-formedness of one entry, independent of its position in the file:
the header splits on `" | "` into exactly four fields, the revision field
parses, the message-length field's first word parses to the number of
message lines, the date field has seven words and its first two parse as a
date and time; all other lines are ordinary lines, each file line has at
least 4 characters and a known status character, and there is at least one
message line. -/
def WFEntryCore (e : RawEntry) : Prop :=
  (∃ p0 p1 p2 p3, pySplit " | " e.headerLine = [p0, p1, p2, p3] ∧
    (pyInt (strDrop p0 1)).isSome ∧
    pyInt ((pySplit " " p3).headD "") = some ((e.msgLines.length : Int)) ∧
    (∃ d t w3 w4 w5 w6 w7, pySplit " " p2 = [d, t, w3, w4, w5, w6, w7] ∧
      (strptimeDT d t).isSome)) ∧
  '\n' ∉ e.headerLine.toList ∧
  lineOK e.pathsLine ∧
  (∀ l ∈ e.fileLines,
    lineOK l ∧ 4 ≤ l.toList.length ∧
    (SVN_STATUS_CHAR ((l.toList.drop 3).headD ' ')).isSome) ∧
  (∀ m ∈ e.msgLines, lineOK m) ∧
  1 ≤ e.msgLines.length

/-- The revision numbers of the entries are consecutive starting at
`k + 1`. -/
def RevsFrom (k : Int) : List RawEntry → Prop
  | [] => True
  | e :: rest => revOf e = k + 1 ∧ RevsFrom (k + 1) rest

/-- The record the specification promises for one changed-file line of an
entry of revision `rev`: the svn path is the characters from index 5, the
status comes from the character at index 3, and the name is the file name
of the path. -/
def specChangedFile (rev : Int) (line : String) : SVN_file :=
  let file_path := String.mk (line.toList.drop 5)
  { name := pyPathName file_path,
    svn_path := file_path,
    status := (SVN_STATUS_CHAR ((line.toList.drop 3).headD ' ')).getD "",
    revision := rev }

/-- The structured record the specification promises for an entry: the
revision number, author and message length are parsed from the first line
split on `" | "`, the changed files are the file lines, and the commit
message is the message lines joined with newlines. -/
def specLogEntry (e : RawEntry) : SVN_log :=
  let parts := pySplit " | " e.headerLine
  let rnum := revOf e
  { revision_number := rnum,
    revision_author := parts.getD 1 "",
    revision_date :=
      (match strptimeDT (((pySplit " " (parts.getD 2 ""))).getD 0 "")
              (((pySplit " " (parts.getD 2 ""))).getD 1 "") with
        | some dt => fmtRevDate dt
        | none => ""),
    commit_message := String.intercalate "\n" e.msgLines,
    changed_files := e.fileLines.map (specChangedFile rnum) }

/-- The scene's svn property group (`context.scene.svn`), restricted to
the state `svn_log.py` reads and writes. -/
structure SvnSceneData where
  log : List SVN_log
  log_update_in_progress : Bool
  log_update_cancel_flag : Bool
deriving DecidableEq, Repr

/-- A background svn subprocess, identified by the revision range its
command line `svn log --verbose -r {start}:{goal}` requests. -/
structure Popen where
  rev_start : Int
  rev_goal : Int
deriving DecidableEq, Repr

/-- Return values of Blender operator methods that this code uses. -/
inductive OpResult where
  | PASS_THROUGH
  | FINISHED
  | RUNNING_MODAL
  | CANCELLED
deriving DecidableEq, Repr

/-- State owned by one run of the `SVN_fetch_log` operator together with
the pieces of the world it touches: the scene's svn data, the operator's
`self.popen`, and the `.svn/svn.log` file (`none` when it does not
exist). -/
structure ModalState where
  svn : SvnSceneData
  popen : Option Popen
  logFile : Option String
deriving DecidableEq, Repr

/-- Host inputs of one modal step: the repository's current revision
(`prefs.revision_number`), whether `poll()` returns non-`None` this step,
and the decoded stdout the finished subprocess delivers. -/
structure ModalEnv where
  current_rev : Int
  poll_done : Bool
  stdout : String
deriving DecidableEq, Repr

/-- `svn.log[-1].revision_number if len(svn.log) > 0 else 0`. -/
def latestLogRev (log : List SVN_log) : Int :=
  match log.getLast? with
  | some e => e.revision_number
  | none => 0

/-- `SVN_fetch_log.MAX_REVS_TO_DOWNLOAD`. -/
def MAX_REVS_TO_DOWNLOAD : Int := 10

/-- The subprocess a modal step starts when `self.popen is None`: the
number of revisions to get is `current_rev - latest_log_rev`, clamped to
`MAX_REVS_TO_DOWNLOAD`, and the requested range is
`latest_log_rev+1 : latest_log_rev+num`. -/
def startPopen (current_rev latest_log_rev : Int) : Popen :=
  let num_logs_to_get := current_rev - latest_log_rev
  let num := if num_logs_to_get > MAX_REVS_TO_DOWNLOAD then MAX_REVS_TO_DOWNLOAD
             else num_logs_to_get
  { rev_start := latest_log_rev + 1, rev_goal := latest_log_rev + num }

/-- `SVN_fetch_log.invoke`: refuse when an update is already running or
the log is already at the current revision (reporting a message and
returning `CANCELLED` with the scene state untouched); otherwise set the
in-progress flag, clear the cancel flag and return `RUNNING_MODAL`.  The
third component is the list of messages passed to `self.report`. -/
def SVN_fetch_log_invoke (current_rev : Int) (svn : SvnSceneData) :
    OpResult × SvnSceneData × List String :=
  if svn.log_update_in_progress then
    (.CANCELLED, svn, ["An SVN Log process is already running!"])
  else
    let latest_log_rev := latestLogRev svn.log
    if latest_log_rev ≥ current_rev then
      (.CANCELLED, svn, ["Log is already up to date, cancelling."])
    else
      (.RUNNING_MODAL,
        { svn with log_update_in_progress := true, log_update_cancel_flag := false },
        ["Begin updating SVN log, this may take a while. Autosave is now disabled! Click the button again to cancel."])

/-- `SVN_fetch_log.modal`, one step.  An uncaught Python exception (from
`read_svn_log_file` or the final `svn.log[-1]` access) is the `.error`
case. -/
def SVN_fetch_log_modal (env : ModalEnv) (s : ModalState) :
    Except PyErr (OpResult × ModalState) :=
  let svn := s.svn
  if svn.log_update_cancel_flag then
    .ok (.FINISHED,
      { s with svn :=
        { svn with log_update_cancel_flag := false, log_update_in_progress := false } })
  else
    let latest_log_rev := latestLogRev svn.log
    let popen :=
      match s.popen with
      | some p => some p
      | none => some (startPopen env.current_rev latest_log_rev)
    if ¬ env.poll_done then .ok (.PASS_THROUGH, { s with popen := popen })
    else
      let file_existed := s.logFile.isSome
      match (match s.logFile with
             | some content => read_svn_log_file svn.log true content
             | none => .ok svn.log : Except PyErr (List SVN_log)) with
      | .error e => .error e
      | .ok log1 =>
        let svn1 := { svn with log := log1 }
        if latest_log_rev ≥ env.current_rev then
          .ok (.FINISHED,
            { s with svn := { svn1 with log_update_in_progress := false },
                     popen := none })
        else
          let new_log := if file_existed then env.stdout.drop 73 else env.stdout
          let content1 := (s.logFile.getD "") ++ new_log
          match read_svn_log_file svn1.log true content1 with
          | .error e => .error e
          | .ok log2 =>
            match log2.getLast? with
            | none => .error .indexError
            | some _ =>
              .ok (.RUNNING_MODAL,
                { s with svn := { svn1 with log := log2 },
                         popen := none,
                         logFile := some content1 })

/-- `SVN_fetch_log_cancel.execute`: set the scene's cancel flag and return
`FINISHED`. -/
def SVN_fetch_log_cancel_execute (svn : SvnSceneData) : OpResult × SvnSceneData :=
  (.FINISHED, { svn with log_update_cancel_flag := true })

/-- A JSON value, the result of `json.loads` (numbers restricted to the
integers; no claim depends on numeric content). -/
inductive JsonVal where
  | null
  | bool (b : Bool)
  | num (n : Int)
  | str (s : String)
  | arr (elems : List JsonVal)
  | obj (fields : List (String × JsonVal))

/-- Lookup in a Python-dict-like association list (first occurrence). -/
def getVal (k : String) : List (String × α) → Option α
  | [] => none
  | (k0, v) :: rest => if k0 = k then some v else getVal k rest

/-- Python dict assignment `d[k] = v`: replace the value at `k` in place,
or append the key in insertion order. -/
def setKey (k : String) (v : α) : List (String × α) → List (String × α)
  | [] => [(k, v)]
  | (k0, v0) :: rest =>
    if k0 = k then (k, v) :: rest else (k0, v0) :: setKey k v rest

/-- Update the value stored at key `k`, if present. -/
def mapAtKey (k : String) (f : α → α) : List (String × α) → List (String × α)
  | [] => []
  | (k0, v) :: rest =>
    if k0 = k then (k0, f v) :: rest else (k0, v) :: mapAtKey k f rest

/-- One entry of the generated cache config for one collection:
`{"cachefile": cachepath}`. -/
structure CollCache where
  cachefile : String
deriving DecidableEq, Repr

/-- The `{"data_from": {"collections": {...}}}` block kept per library
file (`_LIBDICT_TEMPL`). -/
structure LibData where
  collections : List (String × CollCache)
deriving DecidableEq, Repr

/-- The JSON object `gen_config_from_scene` writes (`_CACHECONFIG_TEMPL`):
a `meta` block with the blend-file name and a creation date, and a `libs`
mapping. -/
structure CacheConfigData where
  meta_name : String
  meta_creation_date : String
  libs : List (String × LibData)
deriving DecidableEq, Repr

/-- One datablock of `lib.users_id`: its name and its `bl_rna.identifier`
(`"Collection"` for collections). -/
structure LibItem where
  name : String
  bl_rna_identifier : String
deriving DecidableEq, Repr

/-- One `bpy.data.libraries` entry: its normalized absolute filepath
(`os.path.abspath(bpy.path.abspath(lib.filepath))` as posix) and its used
datablocks. -/
structure BlendLibrary where
  filepath : String
  users_id : List LibItem
deriving DecidableEq, Repr

/-- The inputs `gen_config_from_scene` reads from the host: the linked
libraries, the cache collection list, the blend filepath, the addon's
cache directory and the wall-clock time string.  `cache_collections` is
modelled from the spec: `props.get_cache_collections` (the `props` module
of `cache_manager` is not among the sources) yields the scene's cache
collection list, here identified by collection names; the lookup
`bpy.data.collections[item.name]` resolves a used collection by its
name. -/
structure SceneModel where
  libraries : List BlendLibrary
  cache_collections : List String
  data_filepath : String
  cachedir_path : String
  now_str : String
deriving Repr

/-- `gen_filename_collection`: `f"{collection.name}.abc"`. -/
def gen_filename_collection (collName : String) : String :=
  collName ++ ".abc"

/-- Model of `Path.joinpath(..).as_posix()` on string paths. -/
def pathJoin (a b : String) : String :=
  if a = "" then b
  else if a.toList.getLast? = some '/' then a ++ b
  else a ++ "/" ++ b

/-- `gen_cachepath_collection`: the cache directory joined with the
collection's cache file name.  (`bool(Path(...))` is always `True`, so the
`ValueError` branch of the source cannot fire; `absolute()` is the
identity on the absolute cache directory paths used here.) -/
def gen_cachepath_collection (cachedir collName : String) : String :=
  pathJoin cachedir (gen_filename_collection collName)

/-- The body of the `for item in lib_items` loop of
`gen_config_from_scene`: skip non-collections, skip collections not in
the cache collection list, then create the `libs[libfile]` block if
missing and assign the collection's cachefile dict. -/
def processItem (scn : SceneModel) (libfile : String) (item : LibItem)
    (libs : List (String × LibData)) : List (String × LibData) :=
  if item.bl_rna_identifier ≠ "Collection" then libs
  else if ¬ scn.cache_collections.contains item.name then libs
  else
    let libs1 :=
      if (getVal libfile libs).isNone then setKey libfile { collections := [] } libs
      else libs
    mapAtKey libfile
      (fun ld =>
        { collections :=
            setKey item.name
              { cachefile := gen_cachepath_collection scn.cachedir_path item.name }
              ld.collections })
      libs1

/-- The `libs` mapping built by the nested loops of
`gen_config_from_scene`. -/
def genConfigLibs (scn : SceneModel) : List (String × LibData) :=
  scn.libraries.foldl
    (fun libs lib => lib.users_id.foldl
      (fun l item => processItem scn lib.filepath item l) libs)
    []

/-- `CacheConfigFactory.gen_config_from_scene`: the JSON object written to
the given filepath. -/
def gen_config_from_scene (scn : SceneModel) : CacheConfigData :=
  { meta_name := pyPathName scn.data_filepath,
    meta_creation_date := scn.now_str,
    libs := genConfigLibs scn }

/-- The `CacheConfig` object: its filepath and the `json_obj` loaded from
it. -/
structure CacheConfig where
  filepath : String
  json_obj : JsonVal

/-- `read_json` / `json.loads` on the file's content, given as the
platonic parse outcome of the file's text: `some v` for a file holding
valid JSON parsing to `v`, `none` for one whose text is not valid JSON
(on which `json.loads` raises `json.JSONDecodeError`). -/
def read_json (parsed : Option JsonVal) : Except PyErr JsonVal :=
  match parsed with
  | some v => .ok v
  | none => .error .jsonDecodeError

/-- `CacheConfig(filepath)`: `__init__` calls `load`, which reads and
parses the file. -/
def CacheConfig_init (filepath : String) (parsed : Option JsonVal) :
    Except PyErr CacheConfig :=
  match read_json parsed with
  | .ok v => .ok { filepath := filepath, json_obj := v }
  | .error e => .error e

/-- `CacheConfigFactory.load_config_from_file`: raise `ValueError` when
the filepath does not exist, otherwise construct a `CacheConfig` from the
file. -/
def load_config_from_file (fileExists : Bool) (filepath : String)
    (parsed : Option JsonVal) : Except PyErr CacheConfig :=
  if ¬ fileExists then .error .valueError
  else CacheConfig_init filepath parsed

/-- The pieces of the host's object model that the `register` functions of
`blezou/props.py` and `blender_svn/props.py` install into: the class
registry, the pointer properties on `Sequence` and `Scene` (holding the
name of the property-group type), and the `load_post` handler list. -/
structure HostState where
  registered_classes : List String
  sequence_blezou : Option String
  scene_blezou : Option String
  scene_svn : Option String
  load_post_handlers : List String
deriving DecidableEq, Repr

/-- `blezou/props.py register()`: register both property-group classes,
attach a `blezou` pointer property to `Sequence` and to `Scene`, and
append `load_post_handler` to the host's `load_post` handler list. -/
def blezou_register (h : HostState) : HostState :=
  { h with
    registered_classes :=
      h.registered_classes ++ ["BZ_PopertyGroup_SEQ_Shot", "BZ_PopertyGroup_BlezouData"],
    sequence_blezou := some "BZ_PopertyGroup_SEQ_Shot",
    scene_blezou := some "BZ_PopertyGroup_BlezouData",
    load_post_handlers := h.load_post_handlers ++ ["load_post_handler"] }

/-- `blezou/props.py unregister()`: unregister the two classes in reverse
order and clear the module's cache variables; nothing else is removed. -/
def blezou_unregister (h : HostState) : HostState :=
  { h with
    registered_classes :=
      (h.registered_classes.erase "BZ_PopertyGroup_BlezouData").erase
        "BZ_PopertyGroup_SEQ_Shot" }

/-- `blender_svn/props.py register()`: attach an `svn` pointer property of
type `SVN_scene_properties` to `Scene`. -/
def svn_register (h : HostState) : HostState :=
  { h with scene_svn := some "SVN_scene_properties" }

/-- `blender_svn/props.py unregister()`: `del bpy.types.Scene.svn`. -/
def svn_unregister (h : HostState) : HostState :=
  { h with scene_svn := none }



/-- Whether an item of `lib.users_id` passes both skip checks of
`gen_config_from_scene`: it is a collection and its name is in the cache
collection list. -/
def itemMatch (scn : SceneModel) (item : LibItem) : Bool :=
  item.bl_rna_identifier = "Collection" && scn.cache_collections.contains item.name

/-- The cache entry stored at library file `lf` and collection name `cn`
of a generated `libs` mapping. -/
def getVal2 (libs : List (String × LibData)) (lf cn : String) : Option CollCache :=
  match getVal lf libs with
  | none => none
  | some ld => getVal cn ld.collections

/-- Whether some library with filepath `lf` has a used collection named
`cn` that is in the cache collection list. -/
def hasCacheEntry (scn : SceneModel) (lf cn : String) : Bool :=
  scn.libraries.any (fun lib =>
    lib.filepath = lf && lib.users_id.any (fun item =>
      itemMatch scn item && item.name = cn))

/-- Whether some library with filepath `lf` has any used collection in the
cache collection list. -/
def libHasEntry (scn : SceneModel) (lf : String) : Bool :=
  scn.libraries.any (fun lib => lib.filepath = lf && lib.users_id.any (itemMatch scn))

/-- A concrete well-formed log entry used to instantiate the parser
theorems. -/
def sampleEntry : RawEntry :=
  { headerLine := "r1 | alice | 2022-01-01 12:00:00 +0100 (Sat, 01 Jan 2022) | 1 line",
    pathsLine := "Changed paths:",
    fileLines := ["   M /foo/bar.txt"],
    blankCount := 1,
    msgLines := ["initial commit"] }

/-- A concrete well-formed log entry whose revision number is 2, which
violates the consecutive-from-1 ordering when it is the first entry. -/
def sampleEntryR2 : RawEntry :=
  { headerLine := "r2 | bob | 2022-01-02 13:30:00 +0100 (Sun, 02 Jan 2022) | 1 line",
    pathsLine := "Changed paths:",
    fileLines := ["   A /foo/new.txt"],
    blankCount := 1,
    msgLines := ["second commit"] }

theorem splitCh_cons (c : Char) (rest : List Char) :
    splitCh (c :: rest) =
      if c = '\n' then [] :: splitCh rest
      else (c :: (splitCh rest).headD []) :: (splitCh rest).tail := rfl

theorem splitCh_ne_nil (l : List Char) : splitCh l ≠ [] := by
  induction l with
  | nil => simp [splitCh]
  | cons c rest ih =>
    rw [splitCh_cons]
    split_ifs <;> simp

theorem splitCh_no_newline (a : List Char) (ha : '\n' ∉ a) : splitCh a = [a] := by
  induction a with
  | nil => rfl
  | cons c a' ih =>
    have hc : ¬ c = '\n' := fun h => ha (h ▸ List.mem_cons_self c a')
    have ha' : '\n' ∉ a' := fun h => ha (List.mem_cons_of_mem c h)
    rw [splitCh_cons, if_neg hc, ih ha']
    rfl

theorem splitCh_append_newline (a rest : List Char) (ha : '\n' ∉ a) :
    splitCh (a ++ '\n' :: rest) = a :: splitCh rest := by
  induction a with
  | nil =>
    rw [List.nil_append, splitCh_cons, if_pos rfl]
  | cons c a' ih =>
    have hc : ¬ c = '\n' := fun h => ha (h ▸ List.mem_cons_self c a')
    have ha' : '\n' ∉ a' := fun h => ha (List.mem_cons_of_mem c h)
    rw [List.cons_append, splitCh_cons, if_neg hc, ih ha']
    rfl

theorem pyFileLines_mkFileContent (ls : List String) (h : ∀ l ∈ ls, '\n' ∉ l.toList) :
    pyFileLines (mkFileContent ls) = ls := by
  have key : splitCh ((mkFileContent ls).toList) = ls.map String.toList ++ [[]] := by
    rw [show (mkFileContent ls).toList
        = ls.foldr (fun l acc => l.toList ++ '\n' :: acc) [] from rfl]
    induction ls with
    | nil => rfl
    | cons l ls' ih =>
      rw [List.foldr_cons, splitCh_append_newline _ _ (h l (List.mem_cons_self l ls')),
        ih (fun x hx => h x (List.mem_cons_of_mem l hx))]
      rfl
  unfold pyFileLines
  rw [key]
  rw [List.map_append]
  have hmap : (ls.map String.toList).map String.mk = ls := by
    rw [List.map_map, show String.mk ∘ String.toList = id from funext fun s => rfl,
      List.map_id]
  rw [hmap, show ([[]] : List (List Char)).map String.mk = [""] from rfl]
  simp [List.getLast?_concat, List.dropLast_concat]

theorem dashes72_ne_empty : dashes72 ≠ "" := by decide

theorem mkChunks_cons (line : String) (rest chunk : List String) (acc : List (List String)) :
    mkChunks (line :: rest) chunk acc =
      if line = "" then mkChunks rest chunk acc
      else if line = dashes72 then mkChunks rest [] (chunk :: acc)
      else mkChunks rest (chunk ++ [line]) acc := rfl

theorem mkChunks_seg (ls : List String) (h1 : ∀ l ∈ ls, l ≠ dashes72) :
    ∀ rest chunk acc, mkChunks (ls ++ dashes72 :: rest) chunk acc =
      mkChunks rest [] ((chunk ++ ls.filter (fun l => l ≠ "")) :: acc) := by
  induction ls with
  | nil =>
    intro rest chunk acc
    rw [List.nil_append, mkChunks_cons, if_neg dashes72_ne_empty, if_pos rfl,
      List.filter_nil, List.append_nil]
  | cons l ls' ih =>
    intro rest chunk acc
    have hl : l ≠ dashes72 := h1 l (List.mem_cons_self l ls')
    have h1' : ∀ x ∈ ls', x ≠ dashes72 := fun x hx => h1 x (List.mem_cons_of_mem l hx)
    by_cases he : l = ""
    · rw [List.cons_append, mkChunks_cons, if_pos he, ih h1' rest chunk acc]
      simp [he]
    · rw [List.cons_append, mkChunks_cons, if_neg he, if_neg hl,
        ih h1' rest (chunk ++ [l]) acc]
      simp [he]

theorem mkChunks_entries (entries : List RawEntry)
    (h : ∀ e ∈ entries, ∀ l ∈ entryFileLines e, l ≠ dashes72) :
    ∀ acc, mkChunks (entries.foldr (fun e acc => entryFileLines e ++ dashes72 :: acc) []) [] acc
      = acc.reverse ++ entries.map (fun e => (entryFileLines e).filter (fun l => l ≠ "")) := by
  induction entries with
  | nil => intro acc; simp [mkChunks]
  | cons e rest ih =>
    intro acc
    rw [List.foldr_cons, mkChunks_seg _ (h e (List.mem_cons_self e rest)) _ [] acc,
      ih (fun x hx => h x (List.mem_cons_of_mem e hx))]
    simp

theorem pyBound_ofNat (len n : Nat) : pyBound len (n : Int) = min n len := by
  unfold pyBound
  split_ifs <;> omega

theorem pyBound_neg (len L : Nat) (hL : 1 ≤ L) : pyBound len (-(L : Int)) = len - L := by
  unfold pyBound
  split_ifs <;> omega

theorem pySlice_chunk (h p : String) (files msgs : List String) (hlen : 1 ≤ msgs.length) :
    pySlice 2 (-(msgs.length : Int)) (h :: p :: (files ++ msgs)) = files := by
  unfold pySlice
  have hlen' : (h :: p :: (files ++ msgs)).length = 2 + (files.length + msgs.length) := by
    simp only [List.length_cons, List.length_append]
    omega
  rw [hlen', pyBound_neg _ _ hlen, show ((2 : Int)) = ((2 : Nat) : Int) from rfl,
    pyBound_ofNat]
  have h2 : min 2 (2 + (files.length + msgs.length)) = 2 := by omega
  have h3 : 2 + (files.length + msgs.length) - msgs.length = 2 + files.length := by omega
  rw [h2, h3]
  rw [show h :: p :: (files ++ msgs) = (h :: p :: files) ++ msgs from by simp]
  rw [show 2 + files.length = (h :: p :: files).length from by
    simp only [List.length_cons]; omega]
  rw [List.take_left]
  rfl

theorem pySliceFrom_chunk (h p : String) (files msgs : List String) (hlen : 1 ≤ msgs.length) :
    pySliceFrom (-(msgs.length : Int)) (h :: p :: (files ++ msgs)) = msgs := by
  unfold pySliceFrom
  have hlen' : (h :: p :: (files ++ msgs)).length = 2 + (files.length + msgs.length) := by
    simp only [List.length_cons, List.length_append]
    omega
  rw [hlen', pyBound_neg _ _ hlen]
  have h3 : 2 + (files.length + msgs.length) - msgs.length = 2 + files.length := by omega
  rw [h3]
  rw [show h :: p :: (files ++ msgs) = (h :: p :: files) ++ msgs from by simp]
  rw [show 2 + files.length = (h :: p :: files).length from by
    simp only [List.length_cons]; omega]
  rw [List.drop_left]

theorem parseFileLines_ok (rev : Int) (files : List String)
    (h : ∀ l ∈ files, 4 ≤ l.toList.length ∧
      (SVN_STATUS_CHAR ((l.toList.drop 3).headD ' ')).isSome) :
    parseFileLines rev files = .ok (files.map (specChangedFile rev)) := by
  induction files with
  | nil => rfl
  | cons l rest ih =>
    obtain ⟨h4, hst⟩ := h l (List.mem_cons_self l rest)
    have hne : l.toList.drop 3 ≠ [] := by
      intro hd
      have := congrArg List.length hd
      simp only [List.length_drop, List.length_nil] at this
      omega
    obtain ⟨c, cs, hd⟩ := List.exists_cons_of_ne_nil hne
    rw [hd] at hst
    simp only [List.headD_cons] at hst
    obtain ⟨st, hstv⟩ := Option.isSome_iff_exists.mp hst
    have ih' := ih (fun x hx => h x (List.mem_cons_of_mem l hx))
    simp only [parseFileLines, hd, hstv, ih', List.map_cons]
    simp only [specChangedFile]
    rw [hd]
    simp [hstv]

theorem revOf_eq (e : RawEntry) (p0 p1 p2 p3 : String)
    (hsplit : pySplit " | " e.headerLine = [p0, p1, p2, p3]) :
    revOf e = (pyInt (strDrop p0 1)).getD 0 := by
  simp [revOf, hsplit]

theorem parseChunk_ok (prev : Int) (e : RawEntry) (hc : WFEntryCore e)
    (hrev : revOf e = prev + 1) :
    parseChunk prev (chunkOf e) = .ok (specLogEntry e) := by
  obtain ⟨⟨p0, p1, p2, p3, hsplit, hnum, hmsg, d, t, w3, w4, w5, w6, w7, hdate, hdt⟩,
    hnl, hpaths, hfiles, hmsgs, hlen⟩ := hc
  obtain ⟨r, hr⟩ := Option.isSome_iff_exists.mp hnum
  have hrval : r = prev + 1 := by
    rw [revOf_eq e p0 p1 p2 p3 hsplit, hr] at hrev
    simpa using hrev
  subst hrval
  obtain ⟨dt, hdtv⟩ := Option.isSome_iff_exists.mp hdt
  have hfiles' : ∀ l ∈ e.fileLines, 4 ≤ l.toList.length ∧
      (SVN_STATUS_CHAR ((l.toList.drop 3).headD ' ')).isSome :=
    fun l hl => ⟨(hfiles l hl).2.1, (hfiles l hl).2.2⟩
  simp only [chunkOf, parseChunk, hsplit, hr, hmsg, hdate, hdtv]
  rw [if_neg (by simp)]
  rw [pySlice_chunk _ _ _ _ hlen, pySliceFrom_chunk _ _ _ _ hlen,
    parseFileLines_ok _ _ hfiles']
  simp only [specLogEntry, hsplit, hrev, hdate, hdtv, List.getD_cons_succ,
    List.getD_cons_zero]

theorem parseChunk_assert (prev : Int) (e : RawEntry) (hc : WFEntryCore e)
    (hrev : revOf e ≠ prev + 1) :
    parseChunk prev (chunkOf e) = .error .assertionError := by
  obtain ⟨⟨p0, p1, p2, p3, hsplit, hnum, hmsg, d, t, w3, w4, w5, w6, w7, hdate, hdt⟩,
    hnl, hpaths, hfiles, hmsgs, hlen⟩ := hc
  obtain ⟨r, hr⟩ := Option.isSome_iff_exists.mp hnum
  have hrval : r ≠ prev + 1 := by
    rw [revOf_eq e p0 p1 p2 p3 hsplit, hr] at hrev
    simpa using hrev
  simp only [chunkOf, parseChunk, hsplit, hr]
  rw [if_pos hrval]

theorem specLogEntry_revision (e : RawEntry) :
    (specLogEntry e).revision_number = revOf e := rfl

theorem parseChunks_ok (entries : List RawEntry) :
    ∀ k : Int, (∀ e ∈ entries, WFEntryCore e) → RevsFrom k entries →
      parseChunks k (entries.map chunkOf) = .ok (entries.map specLogEntry) := by
  induction entries with
  | nil => intro k _ _; rfl
  | cons e rest ih =>
    intro k hcore hrevs
    have h1 := parseChunk_ok k e (hcore e (List.mem_cons_self e rest)) hrevs.1
    have h2 := ih (k + 1) (fun x hx => hcore x (List.mem_cons_of_mem e hx)) hrevs.2
    simp only [List.map_cons, parseChunks, h1, specLogEntry_revision, hrevs.1, h2]

theorem parseChunks_assert (entries : List RawEntry) :
    ∀ k : Int, (∀ e ∈ entries, WFEntryCore e) → ¬ RevsFrom k entries →
      parseChunks k (entries.map chunkOf) = .error .assertionError := by
  induction entries with
  | nil => intro k _ hr; exact absurd trivial hr
  | cons e rest ih =>
    intro k hcore hrevs
    by_cases hr : revOf e = k + 1
    · have h1 := parseChunk_ok k e (hcore e (List.mem_cons_self e rest)) hr
      have hrest : ¬ RevsFrom (k + 1) rest := fun h => hrevs ⟨hr, h⟩
      have h2 := ih (k + 1) (fun x hx => hcore x (List.mem_cons_of_mem e hx)) hrest
      simp only [List.map_cons, parseChunks, h1, specLogEntry_revision, hr, h2]
    · have h1 := parseChunk_assert k e (hcore e (List.mem_cons_self e rest)) hr
      simp only [List.map_cons, parseChunks, h1]

theorem headerLine_ne_dashes (e : RawEntry) (p0 p1 p2 p3 : String)
    (hsplit : pySplit " | " e.headerLine = [p0, p1, p2, p3]) :
    e.headerLine ≠ dashes72 := by
  intro h0
  rw [h0, show pySplit " | " dashes72 = [dashes72] from by decide] at hsplit
  simp at hsplit

theorem headerLine_ne_empty (e : RawEntry) (p0 p1 p2 p3 : String)
    (hsplit : pySplit " | " e.headerLine = [p0, p1, p2, p3]) :
    e.headerLine ≠ "" := by
  intro h0
  rw [h0, show pySplit " | " "" = [""] from by decide] at hsplit
  simp at hsplit

theorem entry_lines_ok (e : RawEntry) (hc : WFEntryCore e) :
    ∀ l ∈ entryFileLines e, '\n' ∉ l.toList ∧ l ≠ dashes72 := by
  obtain ⟨⟨p0, p1, p2, p3, hsplit, -, -, -⟩, hnl, hpaths, hfiles, hmsgs, -⟩ := hc
  intro l hl
  simp only [entryFileLines, List.mem_cons, List.mem_append] at hl
  rcases hl with h1 | h2 | (h3 | h4) | h5
  · exact h1 ▸ ⟨hnl, headerLine_ne_dashes e p0 p1 p2 p3 hsplit⟩
  · exact h2 ▸ ⟨hpaths.2.2, hpaths.2.1⟩
  · exact ⟨(hfiles l h3).1.2.2, (hfiles l h3).1.2.1⟩
  · rw [List.eq_of_mem_replicate h4]
    exact ⟨by decide, Ne.symm dashes72_ne_empty⟩
  · exact ⟨(hmsgs l h5).2.2, (hmsgs l h5).2.1⟩

theorem filter_entryFileLines (e : RawEntry) (hc : WFEntryCore e) :
    (entryFileLines e).filter (fun l => l ≠ "") = chunkOf e := by
  obtain ⟨⟨p0, p1, p2, p3, hsplit, -, -, -⟩, hnl, hpaths, hfiles, hmsgs, -⟩ := hc
  have hh : e.headerLine ≠ "" := headerLine_ne_empty e p0 p1 p2 p3 hsplit
  have hfilt1 : e.fileLines.filter (fun l => l ≠ "") = e.fileLines :=
    List.filter_eq_self.mpr fun a ha => by simp [(hfiles a ha).1.1]
  have hfilt2 : e.msgLines.filter (fun l => l ≠ "") = e.msgLines :=
    List.filter_eq_self.mpr fun a ha => by simp [(hmsgs a ha).1]
  have hfilt3 : (List.replicate e.blankCount "").filter (fun l => l ≠ "") = [] := by
    rw [List.filter_replicate]
    simp
  simp only [entryFileLines, chunkOf]
  rw [List.filter_cons_of_pos (by simp [hh]), List.filter_cons_of_pos (by simp [hpaths.1]),
    List.filter_append, List.filter_append, hfilt1, hfilt2, hfilt3]
  simp

theorem mem_entryFold (entries : List RawEntry) (l : String)
    (hl : l ∈ entries.foldr (fun e acc => entryFileLines e ++ dashes72 :: acc) []) :
    (∃ e ∈ entries, l ∈ entryFileLines e) ∨ l = dashes72 := by
  induction entries with
  | nil => simp at hl
  | cons e rest ih =>
    simp only [List.foldr_cons, List.mem_append, List.mem_cons] at hl
    rcases hl with h1 | h2 | h3
    · exact .inl ⟨e, List.mem_cons_self e rest, h1⟩
    · exact .inr h2
    · rcases ih h3 with ⟨x, hx, hlx⟩ | hd
      · exact .inl ⟨x, List.mem_cons_of_mem e hx, hlx⟩
      · exact .inr hd

theorem read_mkLogFile (log0 : List SVN_log) (hdr : String) (entries : List RawEntry)
    (hhdr : '\n' ∉ hdr.toList) (hcore : ∀ e ∈ entries, WFEntryCore e) :
    read_svn_log_file log0 true (mkLogFile hdr entries)
      = parseChunks 0 (entries.map chunkOf) := by
  have hlines : ∀ l ∈ hdr ::
      entries.foldr (fun e acc => entryFileLines e ++ dashes72 :: acc) [],
      '\n' ∉ l.toList := by
    intro l hl
    rcases List.mem_cons.mp hl with h0 | h1
    · exact h0 ▸ hhdr
    · rcases mem_entryFold entries l h1 with ⟨e, he, hle⟩ | hd
      · exact (entry_lines_ok e (hcore e he) l hle).1
      · rw [hd]; decide
  have hdash : ∀ e ∈ entries, ∀ l ∈ entryFileLines e, l ≠ dashes72 :=
    fun e he l hle => (entry_lines_ok e (hcore e he) l hle).2
  show readLogLines (pyFileLines (mkFileContent (hdr ::
    entries.foldr (fun e acc => entryFileLines e ++ dashes72 :: acc) []))) = _
  rw [pyFileLines_mkFileContent _ hlines]
  show parseChunks 0 (mkChunks
    (entries.foldr (fun e acc => entryFileLines e ++ dashes72 :: acc) []) [] []) = _
  rw [mkChunks_entries entries hdash []]
  simp only [List.reverse_nil, List.nil_append]
  exact congrArg (parseChunks 0)
    (List.map_congr_left fun e he => filter_entryFileLines e (hcore e he))

theorem sampleEntry_wf : WFEntryCore sampleEntry :=
  ⟨⟨"r1", "alice", "2022-01-01 12:00:00 +0100 (Sat, 01 Jan 2022)", "1 line",
    by decide, by decide, by decide,
    "2022-01-01", "12:00:00", "+0100", "(Sat,", "01", "Jan", "2022)",
    by decide, by decide⟩,
    by decide, by decide, by decide, by decide, by decide⟩

theorem sampleEntryR2_wf : WFEntryCore sampleEntryR2 :=
  ⟨⟨"r2", "bob", "2022-01-02 13:30:00 +0100 (Sun, 02 Jan 2022)", "1 line",
    by decide, by decide, by decide,
    "2022-01-02", "13:30:00", "+0100", "(Sun,", "02", "Jan", "2022)",
    by decide, by decide⟩,
    by decide, by decide, by decide, by decide, by decide⟩

/-- C1: for every log file consisting of a header line followed by
well-formed entries, each closed by a line of exactly 72 dashes (the svn
log format), `read_svn_log_file` replaces the existing log (whatever it
was) with one structured record per entry: the revision number, author
and message length are parsed from the entry's first line split on
`" | "`, the changed files are the chunk lines from index 2 up to but
excluding the last `r_msg_length` lines (each yielding the svn path from
character 5, the status from the character at index 3, and the file
name), and the commit message is the last `r_msg_length` lines joined
with newlines. -/
theorem C1_read_svn_log_file_parses_entries :
    ∀ (log0 : List SVN_log) (hdr : String) (entries : List RawEntry),
      '\n' ∉ hdr.toList →
      (∀ e ∈ entries, WFEntryCore e) →
      RevsFrom 0 entries →
      read_svn_log_file log0 true (mkLogFile hdr entries) =
        .ok (entries.map specLogEntry) := by
  intro log0 hdr entries hhdr hcore hrevs
  rw [read_mkLogFile log0 hdr entries hhdr hcore]
  exact parseChunks_ok entries 0 hcore hrevs

/-- Witness for C1 at a concrete one-entry log file. -/
theorem C1_witness :
    read_svn_log_file [] true (mkLogFile "first header line" [sampleEntry]) =
      .ok ([sampleEntry].map specLogEntry) :=
  C1_read_svn_log_file_parses_entries [] "first header line" [sampleEntry]
    (by decide)
    (by intro e he; rw [List.mem_singleton] at he; rw [he]; exact sampleEntry_wf)
    ⟨by decide, trivial⟩

/-- C8: `read_svn_log_file` asserts that the revision numbers of the
parsed entries are exactly consecutive starting at 1; for a well-formed
file satisfying this ordering the assertion never fires, and for a
well-formed file violating it the function fails with an assertion
error. -/
theorem C8_revision_assertion :
    ∀ (log0 : List SVN_log) (hdr : String) (entries : List RawEntry),
      '\n' ∉ hdr.toList →
      (∀ e ∈ entries, WFEntryCore e) →
      ((RevsFrom 0 entries →
        read_svn_log_file log0 true (mkLogFile hdr entries) ≠ .error .assertionError) ∧
      (¬ RevsFrom 0 entries →
        read_svn_log_file log0 true (mkLogFile hdr entries) = .error .assertionError)) := by
  intro log0 hdr entries hhdr hcore
  constructor
  · intro hrevs
    rw [read_mkLogFile log0 hdr entries hhdr hcore,
      parseChunks_ok entries 0 hcore hrevs]
    simp
  · intro hrevs
    rw [read_mkLogFile log0 hdr entries hhdr hcore]
    exact parseChunks_assert entries 0 hcore hrevs

/-- Witness for C8: a file whose single entry carries revision 2 fails
with an assertion error. -/
theorem C8_witness :
    read_svn_log_file [] true (mkLogFile "first header line" [sampleEntryR2]) =
      .error .assertionError :=
  (C8_revision_assertion [] "first header line" [sampleEntryR2]
    (by decide)
    (by intro e he; rw [List.mem_singleton] at he; rw [he]; exact sampleEntryR2_wf)).2
    (fun h => absurd h.1 (by decide))

/-- C10: `read_svn_log_file` clears the scene's log collection before
reading, so its result never depends on the log at entry; and when the
filepath does not exist it returns normally with the log left empty. -/
theorem C10_read_clears_log :
    ∀ (log0 log0' : List SVN_log) (fileExists : Bool) (content : String),
      read_svn_log_file log0 fileExists content =
        read_svn_log_file log0' fileExists content ∧
      read_svn_log_file log0 false content = .ok [] :=
  fun _ _ _ _ => ⟨rfl, rfl⟩

/-- C3 counterexample: the claim as stated is false.  In a modal step in
which a subprocess exists and its `poll()` returns `None` but the cancel
flag is set, the operator returns `FINISHED` with the flags cleared, not
`PASS_THROUGH` with the state unchanged, because the cancel check runs
before the poll check. -/
theorem C3_counterexample :
    SVN_fetch_log_modal
        { current_rev := 5, poll_done := false, stdout := "" }
        { svn := { log := [], log_update_in_progress := true, log_update_cancel_flag := true },
          popen := some { rev_start := 1, rev_goal := 5 }, logFile := none } =
      .ok (.FINISHED,
        { svn := { log := [], log_update_in_progress := false, log_update_cancel_flag := false },
          popen := some { rev_start := 1, rev_goal := 5 }, logFile := none }) ∧
    SVN_fetch_log_modal
        { current_rev := 5, poll_done := false, stdout := "" }
        { svn := { log := [], log_update_in_progress := true, log_update_cancel_flag := true },
          popen := some { rev_start := 1, rev_goal := 5 }, logFile := none } ≠
      .ok (.PASS_THROUGH,
        { svn := { log := [], log_update_in_progress := true, log_update_cancel_flag := true },
          popen := some { rev_start := 1, rev_goal := 5 }, logFile := none }) := by
  constructor
  · rfl
  · decide

/-- C3 (amended): in every modal step in which the cancel flag is clear, a
subprocess exists and its `poll()` returns `None`, the operator returns
`PASS_THROUGH` and changes no state. -/
theorem C3_poll_passthrough :
    ∀ (env : ModalEnv) (s : ModalState) (p : Popen),
      s.svn.log_update_cancel_flag = false → s.popen = some p → env.poll_done = false →
      SVN_fetch_log_modal env s = .ok (.PASS_THROUGH, s) := by
  intro env s p hc hp hpoll
  have hs : ({ s with popen := some p } : ModalState) = s := by rw [← hp]
  simp [SVN_fetch_log_modal, hc, hp, hpoll, hs]

/-- Witness for the amended C3 at a concrete state. -/
theorem C3_witness :
    SVN_fetch_log_modal
        { current_rev := 5, poll_done := false, stdout := "" }
        { svn := { log := [], log_update_in_progress := true, log_update_cancel_flag := false },
          popen := some { rev_start := 1, rev_goal := 5 }, logFile := none } =
      .ok (.PASS_THROUGH,
        { svn := { log := [], log_update_in_progress := true, log_update_cancel_flag := false },
          popen := some { rev_start := 1, rev_goal := 5 }, logFile := none }) :=
  C3_poll_passthrough _ _ { rev_start := 1, rev_goal := 5 } rfl rfl rfl

/-- C4: invoking `SVN_fetch_log` while an update is in progress, or while
the latest log revision is at least the current revision, reports a
message and returns `CANCELLED` with the SVN state unchanged; otherwise
it sets the in-progress flag, clears the cancel flag and returns
`RUNNING_MODAL`. -/
theorem C4_invoke :
    ∀ (current_rev : Int) (svn : SvnSceneData),
      ((svn.log_update_in_progress = true ∨ latestLogRev svn.log ≥ current_rev) →
        (SVN_fetch_log_invoke current_rev svn).1 = .CANCELLED ∧
        (SVN_fetch_log_invoke current_rev svn).2.1 = svn ∧
        (SVN_fetch_log_invoke current_rev svn).2.2 ≠ []) ∧
      (svn.log_update_in_progress = false → latestLogRev svn.log < current_rev →
        SVN_fetch_log_invoke current_rev svn =
          (.RUNNING_MODAL,
            { svn with log_update_in_progress := true, log_update_cancel_flag := false },
            ["Begin updating SVN log, this may take a while. Autosave is now disabled! Click the button again to cancel."])) := by
  intro current_rev svn
  constructor
  · intro h
    rcases h with hip | hrev
    · simp [SVN_fetch_log_invoke, hip]
    · by_cases hip : svn.log_update_in_progress
      · simp [SVN_fetch_log_invoke, hip]
      · simp [SVN_fetch_log_invoke, hip, hrev]
  · intro hip hrev
    simp [SVN_fetch_log_invoke, hip, not_le.mpr hrev]

/-- Witness for C4: a fresh scene state with a newer current revision
starts a modal run. -/
theorem C4_witness :
    SVN_fetch_log_invoke 1
        { log := [], log_update_in_progress := false, log_update_cancel_flag := false } =
      (.RUNNING_MODAL,
        { log := [], log_update_in_progress := true, log_update_cancel_flag := false },
        ["Begin updating SVN log, this may take a while. Autosave is now disabled! Click the button again to cancel."]) :=
  (C4_invoke 1 { log := [], log_update_in_progress := false, log_update_cancel_flag := false }).2
    rfl (by decide)

/-- C5: `SVN_fetch_log_cancel.execute` sets the scene's cancel flag and
returns `FINISHED`; a modal step of `SVN_fetch_log` that observes the
cancel flag set clears both the cancel flag and the in-progress flag and
returns `FINISHED` without touching the subprocess, the log file or the
parsed log. -/
theorem C5_cancel :
    ∀ (svn : SvnSceneData) (env : ModalEnv) (s : ModalState),
      SVN_fetch_log_cancel_execute svn =
        (.FINISHED, { svn with log_update_cancel_flag := true }) ∧
      (s.svn.log_update_cancel_flag = true →
        SVN_fetch_log_modal env s =
          .ok (.FINISHED,
            { s with svn := { s.svn with log_update_cancel_flag := false,
                                          log_update_in_progress := false } })) := by
  intro svn env s
  refine ⟨rfl, fun h => ?_⟩
  simp [SVN_fetch_log_modal, h]

/-- Witness for C5 at a concrete cancelled state. -/
theorem C5_witness :
    SVN_fetch_log_modal
        { current_rev := 7, poll_done := true, stdout := "" }
        { svn := { log := [], log_update_in_progress := true, log_update_cancel_flag := true },
          popen := none, logFile := none } =
      .ok (.FINISHED,
        { svn := { log := [], log_update_in_progress := false, log_update_cancel_flag := false },
          popen := none, logFile := none }) :=
  (C5_cancel { log := [], log_update_in_progress := true, log_update_cancel_flag := true }
    { current_rev := 7, poll_done := true, stdout := "" }
    { svn := { log := [], log_update_in_progress := true, log_update_cancel_flag := true },
      popen := none, logFile := none }).2 rfl

/-- C9: every subprocess started by a modal step requests the range from
the latest parsed revision plus one to the latest plus
`min(current_rev - latest, MAX_REVS_TO_DOWNLOAD)`, so the goal revision
never exceeds the current revision and never exceeds the latest parsed
revision by more than `MAX_REVS_TO_DOWNLOAD = 10`; `startPopen` is the
only spawn site of `SVN_fetch_log_modal`. -/
theorem C9_subprocess_range :
    ∀ (current_rev latest : Int),
      (startPopen current_rev latest).rev_start = latest + 1 ∧
      (startPopen current_rev latest).rev_goal =
        latest + min (current_rev - latest) MAX_REVS_TO_DOWNLOAD ∧
      (startPopen current_rev latest).rev_goal ≤ current_rev ∧
      (startPopen current_rev latest).rev_goal ≤ latest + MAX_REVS_TO_DOWNLOAD ∧
      MAX_REVS_TO_DOWNLOAD = 10 ∧
      (∀ (env : ModalEnv) (s : ModalState),
        s.svn.log_update_cancel_flag = false → s.popen = none → env.poll_done = false →
        SVN_fetch_log_modal env s =
          .ok (.PASS_THROUGH,
            { s with popen := some (startPopen env.current_rev (latestLogRev s.svn.log)) })) := by
  intro current_rev latest
  refine ⟨rfl, ?_, ?_, ?_, rfl, ?_⟩
  · simp only [startPopen, MAX_REVS_TO_DOWNLOAD]
    split_ifs <;> omega
  · simp only [startPopen, MAX_REVS_TO_DOWNLOAD]
    split_ifs <;> omega
  · simp only [startPopen, MAX_REVS_TO_DOWNLOAD]
    split_ifs <;> omega
  · intro env s hc hp hpoll
    simp [SVN_fetch_log_modal, hc, hp, hpoll]

/-- Witness for C9 at a concrete state: with an empty log and current
revision 25, the first subprocess requests revisions 1 to 10. -/
theorem C9_witness :
    SVN_fetch_log_modal
        { current_rev := 25, poll_done := false, stdout := "" }
        { svn := { log := [], log_update_in_progress := true, log_update_cancel_flag := false },
          popen := none, logFile := none } =
      .ok (.PASS_THROUGH,
        { svn := { log := [], log_update_in_progress := true, log_update_cancel_flag := false },
          popen := some (startPopen 25 (latestLogRev [])), logFile := none }) :=
  (C9_subprocess_range 25 0).2.2.2.2.2
    { current_rev := 25, poll_done := false, stdout := "" }
    { svn := { log := [], log_update_in_progress := true, log_update_cancel_flag := false },
      popen := none, logFile := none } rfl rfl rfl

/-- C6 counterexample: the claim's "raises `ValueError` if and only if the
filepath does not exist" is false.  At the concrete input of an existing
file whose text is not valid JSON, `json.loads` raises
`json.JSONDecodeError`, which is a `ValueError` subclass, even though the
filepath exists. -/
theorem C6_counterexample :
    ¬ (∀ (fileExists : Bool) (filepath : String) (parsed : Option JsonVal),
        ((∃ e, load_config_from_file fileExists filepath parsed = .error e ∧
            e.isValueError = true) ↔ fileExists = false) ∧
        (∀ v, parsed = some v →
          load_config_from_file fileExists filepath parsed =
            .ok { filepath := filepath, json_obj := v })) := by
  intro h
  have h1 := (h true "cacheconfig.json" none).1.mp ⟨.jsonDecodeError, rfl, rfl⟩
  exact Bool.noConfusion h1

/-- C6 (amended): `load_config_from_file` raises `ValueError` when the
filepath does not exist; when the file exists but its text is not valid
JSON, the JSON decode error (itself a `ValueError` subclass) propagates;
when the file exists and holds valid JSON it returns a `CacheConfig`
whose `json_obj` equals the parsed JSON content of the file. -/
theorem C6_load_config :
    ∀ (fileExists : Bool) (filepath : String) (parsed : Option JsonVal),
      (fileExists = false →
        load_config_from_file fileExists filepath parsed = .error .valueError) ∧
      (fileExists = true → parsed = none →
        load_config_from_file fileExists filepath parsed = .error .jsonDecodeError ∧
        PyErr.isValueError .jsonDecodeError = true) ∧
      (fileExists = true → ∀ v, parsed = some v →
        load_config_from_file fileExists filepath parsed =
          .ok { filepath := filepath, json_obj := v }) := by
  intro fileExists filepath parsed
  refine ⟨fun h => ?_, fun h hp => ?_, fun h v hp => ?_⟩
  · rw [h]; rfl
  · rw [h, hp]; exact ⟨rfl, rfl⟩
  · rw [h, hp]; rfl

/-- Witness for C6 at a concrete existing file with valid JSON content. -/
theorem C6_witness :
    load_config_from_file true "cacheconfig.json" (some (.obj [])) =
      .ok { filepath := "cacheconfig.json", json_obj := .obj [] } :=
  (C6_load_config true "cacheconfig.json" (some (.obj []))).2.2 rfl (.obj []) rfl

/-- C7 counterexample: the claim's "the corresponding unregister functions
remove what was installed" is false for the blezou module.  Starting from
an empty host state, registering and then unregistering blezou leaves the
`load_post` handler (and both `blezou` pointer properties) installed. -/
theorem C7_counterexample :
    blezou_unregister (blezou_register
        { registered_classes := [], sequence_blezou := none, scene_blezou := none,
          scene_svn := none, load_post_handlers := [] }) ≠
      { registered_classes := [], sequence_blezou := none, scene_blezou := none,
        scene_svn := none, load_post_handlers := [] } ∧
    (blezou_unregister (blezou_register
        { registered_classes := [], sequence_blezou := none, scene_blezou := none,
          scene_svn := none, load_post_handlers := [] })).load_post_handlers =
      ["load_post_handler"] := by
  constructor
  · decide
  · rfl

/-- C7 (amended): the blezou `register` registers both property-group
classes, attaches a `blezou` pointer property to `Sequence` and `Scene`,
and appends `load_post_handler` to the host's `load_post` handlers; the
SVN `register` attaches an `svn` pointer property of type
`SVN_scene_properties` to `Scene` and its `unregister` removes it; but the
blezou `unregister` removes only the two registered classes, leaving both
`blezou` pointer properties and the appended `load_post` handler
installed. -/
theorem C7_register_unregister :
    ∀ h : HostState,
      blezou_register h =
        { h with
          registered_classes := h.registered_classes ++
            ["BZ_PopertyGroup_SEQ_Shot", "BZ_PopertyGroup_BlezouData"],
          sequence_blezou := some "BZ_PopertyGroup_SEQ_Shot",
          scene_blezou := some "BZ_PopertyGroup_BlezouData",
          load_post_handlers := h.load_post_handlers ++ ["load_post_handler"] } ∧
      ("BZ_PopertyGroup_SEQ_Shot" ∉ h.registered_classes →
        "BZ_PopertyGroup_BlezouData" ∉ h.registered_classes →
        blezou_unregister (blezou_register h) =
          { h with
            sequence_blezou := some "BZ_PopertyGroup_SEQ_Shot",
            scene_blezou := some "BZ_PopertyGroup_BlezouData",
            load_post_handlers := h.load_post_handlers ++ ["load_post_handler"] }) ∧
      svn_register h = { h with scene_svn := some "SVN_scene_properties" } ∧
      svn_unregister (svn_register h) = { h with scene_svn := none } := by
  intro h
  refine ⟨rfl, fun h1 h2 => ?_, rfl, rfl⟩
  simp only [blezou_register, blezou_unregister]
  rw [List.erase_append_right _ h2, List.erase_append_right _ h1]
  simp

/-- Witness for the amended C7 at the empty host state. -/
theorem C7_witness :
    blezou_unregister (blezou_register
        { registered_classes := [], sequence_blezou := none, scene_blezou := none,
          scene_svn := none, load_post_handlers := [] }) =
      { registered_classes := [], sequence_blezou := some "BZ_PopertyGroup_SEQ_Shot",
        scene_blezou := some "BZ_PopertyGroup_BlezouData",
        scene_svn := none, load_post_handlers := ["load_post_handler"] } :=
  (C7_register_unregister
    { registered_classes := [], sequence_blezou := none, scene_blezou := none,
      scene_svn := none, load_post_handlers := [] }).2.1
    (by decide) (by decide)


theorem getVal_setKey (k k' : String) (v : α) (l : List (String × α)) :
    getVal k (setKey k' v l) = if k' = k then some v else getVal k l := by
  induction l with
  | nil => simp [setKey, getVal]
  | cons kv rest ih =>
    obtain ⟨k0, v0⟩ := kv
    by_cases h0 : k0 = k'
    · subst h0
      by_cases hk : k0 = k
      · subst hk; simp [setKey, getVal]
      · simp [setKey, getVal, hk]
    · by_cases hk : k0 = k
      · subst hk
        have hk' : ¬ k' = k0 := fun hh => h0 hh.symm
        simp [setKey, getVal, h0, hk']
      · simp [setKey, getVal, h0, hk, ih]

theorem getVal_mapAtKey (k k' : String) (f : α → α) (l : List (String × α)) :
    getVal k (mapAtKey k' f l) = if k' = k then (getVal k l).map f else getVal k l := by
  induction l with
  | nil => simp [mapAtKey, getVal]
  | cons kv rest ih =>
    obtain ⟨k0, v0⟩ := kv
    by_cases h0 : k0 = k'
    · subst h0
      by_cases hk : k0 = k
      · subst hk; simp [mapAtKey, getVal]
      · simp [mapAtKey, getVal, hk]
    · by_cases hk : k0 = k
      · subst hk
        have hk' : ¬ k' = k0 := fun hh => h0 hh.symm
        simp [mapAtKey, getVal, h0, hk']
      · simp [mapAtKey, getVal, h0, hk, ih]

theorem getVal2_eq (libs : List (String × LibData)) (lf cn : String) :
    getVal2 libs lf cn = (getVal lf libs).bind (fun ld => getVal cn ld.collections) := by
  unfold getVal2
  cases getVal lf libs <;> rfl

theorem getVal_processItem (scn : SceneModel) (lf0 : String) (item : LibItem)
    (libs : List (String × LibData)) (lf : String) :
    getVal lf (processItem scn lf0 item libs) =
      if itemMatch scn item && lf0 = lf then
        some { collections :=
                setKey item.name
                  { cachefile := gen_cachepath_collection scn.cachedir_path item.name }
                  ((getVal lf libs).getD { collections := [] }).collections }
      else getVal lf libs := by
  by_cases h1 : item.bl_rna_identifier = "Collection"
  case neg =>
    have hm : itemMatch scn item = false := by simp [itemMatch, h1]
    simp [processItem, h1, hm]
  case pos =>
    by_cases h2 : item.name ∈ scn.cache_collections
    case neg =>
      have hm : itemMatch scn item = false := by simp [itemMatch, h2]
      simp [processItem, h1, h2, hm]
    case pos =>
      have hm : itemMatch scn item = true := by simp [itemMatch, h1, h2]
      have hproc : processItem scn lf0 item libs =
          mapAtKey lf0
            (fun ld =>
              { collections :=
                  setKey item.name
                    { cachefile := gen_cachepath_collection scn.cachedir_path item.name }
                    ld.collections })
            (if (getVal lf0 libs).isNone then
              setKey lf0 { collections := [] } libs else libs) := by
        simp [processItem, h1, h2]
      by_cases hlf : lf0 = lf
      · subst hlf
        cases hval : getVal lf0 libs with
        | none =>
          rw [hproc]
          simp [getVal_mapAtKey, getVal_setKey, hm, hval]
        | some ld =>
          rw [hproc]
          simp [getVal_mapAtKey, hm, hval]
      · cases hval : getVal lf0 libs with
        | none =>
          rw [hproc]
          simp [getVal_mapAtKey, getVal_setKey, hm, hlf, hval]
        | some ld =>
          rw [hproc]
          simp [getVal_mapAtKey, hm, hlf, hval]

theorem isSome_processItem (scn : SceneModel) (lf0 : String) (item : LibItem)
    (libs : List (String × LibData)) (lf : String) :
    (getVal lf (processItem scn lf0 item libs)).isSome =
      ((itemMatch scn item && lf0 = lf) || (getVal lf libs).isSome) := by
  rw [getVal_processItem]
  by_cases h : (itemMatch scn item && lf0 = lf) = true
  · simp [h]
  · simp [h]

theorem getVal2_processItem (scn : SceneModel) (lf0 : String) (item : LibItem)
    (libs : List (String × LibData)) (lf cn : String) :
    getVal2 (processItem scn lf0 item libs) lf cn =
      if itemMatch scn item && lf0 = lf && item.name = cn then
        some { cachefile := gen_cachepath_collection scn.cachedir_path cn }
      else getVal2 libs lf cn := by
  rw [getVal2_eq, getVal_processItem, getVal2_eq]
  by_cases h1 : (itemMatch scn item && lf0 = lf) = true
  · rw [if_pos h1]
    by_cases h2 : item.name = cn
    · subst h2
      simp [h1, getVal_setKey]
    · cases hval : getVal lf libs with
      | none => simp [h1, h2, getVal_setKey, hval, getVal]
      | some ld => simp [h1, h2, getVal_setKey, hval]
  · rw [if_neg h1]
    have hno : ¬ (itemMatch scn item && lf0 = lf && item.name = cn) = true := by
      intro hh
      simp only [Bool.and_eq_true] at hh
      exact h1 (by simp [hh.1.1, hh.1.2])
    rw [if_neg hno]

theorem getVal2_foldItems (scn : SceneModel) (lf0 : String) (items : List LibItem) :
    ∀ (libs : List (String × LibData)) (lf cn : String),
      getVal2 (items.foldl (fun l item => processItem scn lf0 item l) libs) lf cn =
        if lf0 = lf && items.any (fun item => itemMatch scn item && item.name = cn) then
          some { cachefile := gen_cachepath_collection scn.cachedir_path cn }
        else getVal2 libs lf cn := by
  induction items with
  | nil => intro libs lf cn; simp
  | cons item rest ih =>
    intro libs lf cn
    rw [List.foldl_cons, ih, getVal2_processItem]
    by_cases ha : itemMatch scn item = true <;>
      by_cases hb : lf0 = lf <;>
        by_cases hc2 : item.name = cn <;>
          by_cases hd : rest.any (fun it => itemMatch scn it && it.name = cn) = true <;>
            simp [ha, hb, hc2, hd]

theorem isSome_foldItems (scn : SceneModel) (lf0 : String) (items : List LibItem) :
    ∀ (libs : List (String × LibData)) (lf : String),
      (getVal lf (items.foldl (fun l item => processItem scn lf0 item l) libs)).isSome =
        ((lf0 = lf && items.any (itemMatch scn)) || (getVal lf libs).isSome) := by
  induction items with
  | nil => intro libs lf; simp
  | cons item rest ih =>
    intro libs lf
    rw [List.foldl_cons, ih, isSome_processItem]
    by_cases ha : itemMatch scn item = true <;>
      by_cases hb : lf0 = lf <;>
        by_cases hd : rest.any (itemMatch scn) = true <;>
          simp [ha, hb, hd]

theorem getVal2_foldLibs (scn : SceneModel) (libsList : List BlendLibrary) :
    ∀ (libs : List (String × LibData)) (lf cn : String),
      getVal2 (libsList.foldl (fun l lib =>
          lib.users_id.foldl (fun l2 item => processItem scn lib.filepath item l2) l) libs)
        lf cn =
        if libsList.any (fun lib => lib.filepath = lf &&
            lib.users_id.any (fun item => itemMatch scn item && item.name = cn)) then
          some { cachefile := gen_cachepath_collection scn.cachedir_path cn }
        else getVal2 libs lf cn := by
  induction libsList with
  | nil => intro libs lf cn; simp
  | cons lib rest ih =>
    intro libs lf cn
    rw [List.foldl_cons, ih, getVal2_foldItems]
    by_cases ha : lib.filepath = lf <;>
      by_cases hb : lib.users_id.any (fun item => itemMatch scn item && item.name = cn) = true <;>
        by_cases hd : rest.any (fun l => l.filepath = lf &&
          l.users_id.any (fun item => itemMatch scn item && item.name = cn)) = true <;>
          simp [ha, hb, hd]

theorem isSome_foldLibs (scn : SceneModel) (libsList : List BlendLibrary) :
    ∀ (libs : List (String × LibData)) (lf : String),
      (getVal lf (libsList.foldl (fun l lib =>
          lib.users_id.foldl (fun l2 item => processItem scn lib.filepath item l2) l) libs)).isSome =
        (libsList.any (fun lib => lib.filepath = lf && lib.users_id.any (itemMatch scn)) ||
          (getVal lf libs).isSome) := by
  induction libsList with
  | nil => intro libs lf; simp
  | cons lib rest ih =>
    intro libs lf
    rw [List.foldl_cons, ih, isSome_foldItems]
    by_cases ha : lib.filepath = lf <;>
      by_cases hb : lib.users_id.any (itemMatch scn) = true <;>
        by_cases hd : rest.any (fun l => l.filepath = lf &&
          l.users_id.any (itemMatch scn)) = true <;>
          simp [ha, hb, hd]

/-- C2: `gen_config_from_scene` writes a JSON object whose `meta` block
holds the blend-file name and a creation date, and whose `libs` mapping
contains, for exactly those pairs of a library file and a used collection
whose name is in the scene's cache collection list, an entry mapping the
collection name to a dict whose `cachefile` is the cache directory joined
with `<collection name>.abc`; collections not in the cache collection
list and non-collection library items produce no entry, and a library
file gets an entry exactly when one of its used collections qualifies. -/
theorem C2_gen_config_from_scene :
    ∀ (scn : SceneModel) (lf cn : String),
      (gen_config_from_scene scn).meta_name = pyPathName scn.data_filepath ∧
      (gen_config_from_scene scn).meta_creation_date = scn.now_str ∧
      getVal2 (gen_config_from_scene scn).libs lf cn =
        (if hasCacheEntry scn lf cn then
          some { cachefile := pathJoin scn.cachedir_path (cn ++ ".abc") }
        else none) ∧
      (getVal lf (gen_config_from_scene scn).libs).isSome = libHasEntry scn lf ∧
      (hasCacheEntry scn lf cn = true ↔
        ∃ lib, lib ∈ scn.libraries ∧ lib.filepath = lf ∧
          ∃ item, item ∈ lib.users_id ∧ item.bl_rna_identifier = "Collection" ∧
            item.name = cn ∧ cn ∈ scn.cache_collections) := by
  intro scn lf cn
  refine ⟨rfl, rfl, ?_, ?_, ?_⟩
  · exact getVal2_foldLibs scn scn.libraries [] lf cn
  · rw [show (gen_config_from_scene scn).libs = genConfigLibs scn from rfl,
      show genConfigLibs scn = scn.libraries.foldl (fun l lib =>
        lib.users_id.foldl (fun l2 item => processItem scn lib.filepath item l2) l) []
        from rfl,
      isSome_foldLibs scn scn.libraries [] lf]
    simp [libHasEntry, getVal]
  · simp only [hasCacheEntry, itemMatch, List.any_eq_true, Bool.and_eq_true,
      decide_eq_true_eq, List.elem_eq_mem, List.contains_eq_any_beq]
    constructor
    · rintro ⟨lib, hlib, hlf, item, hitem, ⟨hid, hmem⟩, hname⟩
      exact ⟨lib, hlib, hlf, item, hitem, hid, hname, hname ▸ hmem⟩
    · rintro ⟨lib, hlib, hlf, item, hitem, hid, hname, hmem⟩
      exact ⟨lib, hlib, hlf, item, hitem, ⟨hid, hname ▸ hmem⟩, hname⟩
